import Mathlib

/-!
Verification of the excalidraw-backend relay server (src/index.ts).

The source registers socket event handlers on connection:
`join-room`, `server-broadcast`, `server-volatile-broadcast`,
`disconnecting`, `disconnect`.  Two revisions are present: revision 1
(socket.io v2 style, `adapter.rooms[roomID].sockets`) and revision 2
(socket.io v4 style, `adapter.rooms.get(roomID)` with a `USER_LIMIT`
eviction).  We embed the room registry as an association list from room
ids to member lists (insertion ordered, as socket.io adapters keep a
Map of room name to Set of socket ids, pruning a room when it becomes
empty), and each handler as a function from state and event arguments
to the new state and the list of emitted events.
-/

namespace ExcalidrawBackend

abbrev SocketId := String
abbrev RoomId := String

/-- Payload attached to an outbound (server to client) event. -/
inductive Payload where
  | empty : Payload
  | sid (id : SocketId) : Payload
  | idList (ids : List SocketId) : Payload
  | bytes (encryptedData : List Nat) (iv : List Nat) : Payload
deriving Repr, DecidableEq

/-- One outbound event: the event name, the set of addressed sockets
(as a list), the payload, and whether it was sent via the volatile
(best-effort) flag. -/
structure Emit where
  event : String
  recipients : List SocketId
  payload : Payload
  volatile : Bool
deriving Repr, DecidableEq

/-- The adapter's room index: room id to current member sockets
(`io.sockets.adapter.rooms`).  A room absent from the list has no
members; socket.io deletes a room entry when its member set empties. -/
structure ServerState where
  rooms : List (RoomId × List SocketId)
deriving Repr, DecidableEq

/-- First entry of the index with the given room key, if any. -/
def lookupRoom : List (RoomId × List SocketId) → RoomId → Option (List SocketId)
  | [], _ => none
  | (r', ms) :: rest, r => if r' = r then some ms else lookupRoom rest r

/-- Look up a room's entry (`adapter.rooms.get(roomID)` in revision 2;
`adapter.rooms[roomID]` in revision 1, where a missing entry is
`undefined` and dereferencing it throws). -/
def getRoom (s : ServerState) (r : RoomId) : Option (List SocketId) :=
  lookupRoom s.rooms r

/-- Membership query with the empty-set fallback
(`Array.from(clientAdapter || [])` in revision 2). -/
def members (s : ServerState) (r : RoomId) : List SocketId :=
  (getRoom s r).getD []

/-- Add a socket to a room in the index: append a fresh entry if the
room does not exist, otherwise add the socket to the member set if not
already present (socket.io stores members in a Set, so joining is
idempotent and preserves insertion order). -/
def addToRoom : List (RoomId × List SocketId) → RoomId → SocketId →
    List (RoomId × List SocketId)
  | [], r, sid => [(r, [sid])]
  | (r', ms) :: rest, r, sid =>
      if r' = r then
        (r', if sid ∈ ms then ms else ms ++ [sid]) :: rest
      else
        (r', ms) :: addToRoom rest r sid

/-- Models `socket.join(roomID)`: the adapter adds the socket to the room. -/
def joinRoom (s : ServerState) (sid : SocketId) (r : RoomId) : ServerState :=
  ⟨addToRoom s.rooms r sid⟩

/-- Remove a socket from a room in the index, deleting the room entry
when its member set becomes empty (socket.io adapter behavior). -/
def removeFromRoom : List (RoomId × List SocketId) → RoomId → SocketId →
    List (RoomId × List SocketId)
  | [], _, _ => []
  | (r', ms) :: rest, r, sid =>
      if r' = r then
        let ms' := ms.filter (fun x => x != sid)
        if ms' = [] then rest else (r', ms') :: rest
      else
        (r', ms) :: removeFromRoom rest r sid

/-- Models `socket.leave(roomID)`: the adapter removes the socket from the
room; a no-op when the room does not exist or the socket is not a
member. -/
def leaveRoom (s : ServerState) (sid : SocketId) (r : RoomId) : ServerState :=
  ⟨removeFromRoom s.rooms r sid⟩

/-- Models `socket.rooms`: the set of room ids the socket currently belongs
to, derived from the adapter index (socket.io keeps the two views
consistent; a connected socket always belongs to its own id room). -/
def socketRooms (s : ServerState) (sid : SocketId) : List RoomId :=
  (s.rooms.filter (fun p => p.2.contains sid)).map (fun p => p.1)

/-- Well-formedness of the room index: it is a map, so each room id
has at most one entry.  Holds for every state socket.io can reach. -/
def WF (s : ServerState) : Prop :=
  (s.rooms.map (fun p => p.1)).Nodup

instance (s : ServerState) : Decidable (WF s) := by
  unfold WF; infer_instance

/-! ### Revision 1 handlers (src/index.ts lines 48 to 103) -/

/-- The `join-room` handler of revision 1:
`socket.join(roomID)`; then if `rooms[roomID].length <= 1` emit
`first-in-room` to the joiner, else emit `new-user` with the joiner's
id to the other room members (`socket.broadcast.to(roomID)`); finally
emit `room-user-change` with the full member list to the whole room
(`io.in(roomID)`). -/
def joinRoomHandler (s : ServerState) (sid : SocketId) (roomID : RoomId) :
    ServerState × List Emit :=
  let s' := joinRoom s sid roomID
  let ms := members s' roomID
  let firstOrNew :=
    if ms.length ≤ 1 then
      [⟨"first-in-room", [sid], Payload.empty, false⟩]
    else
      [⟨"new-user", ms.filter (fun x => x != sid), Payload.sid sid, false⟩]
  (s', firstOrNew ++ [⟨"room-user-change", ms, Payload.idList ms, false⟩])

/-- The `server-broadcast` handler (identical in both revisions):
`socket.broadcast.to(roomID).emit('client-broadcast', encryptedData, iv)`,
a reliable relay to every room member except the sender. -/
def serverBroadcastHandler (s : ServerState) (sid : SocketId)
    (roomID : RoomId) (encryptedData iv : List Nat) : List Emit :=
  [⟨"client-broadcast", (members s roomID).filter (fun x => x != sid),
    Payload.bytes encryptedData iv, false⟩]

/-- The `server-volatile-broadcast` handler (identical in both
revisions): the same fan-out issued through `socket.volatile`. -/
def serverVolatileBroadcastHandler (s : ServerState) (sid : SocketId)
    (roomID : RoomId) (encryptedData iv : List Nat) : List Emit :=
  [⟨"client-broadcast", (members s roomID).filter (fun x => x != sid),
    Payload.bytes encryptedData iv, true⟩]

/-- One iteration of the `disconnecting` loop body, for a single room
id taken from `socket.rooms`: compute `clients`, the members other
than the disconnecting socket; if the room id differs from the
socket's own id emit `user has left` with the socket's id via
`socket.to(roomID)` (room members except the sender); if `clients` is
non-empty emit `room-user-change` with `clients` via
`socket.broadcast.to(roomID)`. -/
def disconnectRoomEmits (s : ServerState) (sid : SocketId)
    (roomID : RoomId) : List Emit :=
  let clients := (members s roomID).filter (fun x => x != sid)
  (if roomID ≠ sid then
      [⟨"user has left", clients, Payload.sid sid, false⟩]
    else []) ++
  (if clients.length > 0 then
      [⟨"room-user-change", clients, Payload.idList clients, false⟩]
    else [])

/-- The `disconnecting` handler (same observable behavior in both
revisions): iterate over every room the socket belongs to and produce
that room's emissions.  The handler itself does not mutate the index;
socket.io removes the socket from all rooms right after it runs. -/
def disconnectingHandler (s : ServerState) (sid : SocketId) : List Emit :=
  (socketRooms s sid).flatMap (disconnectRoomEmits s sid)

/-! ### Revision 2 join handler (src/index.ts lines 156 to 240) -/

/-- Models `clients.length > userLimit` where
`userLimit = Number(process.env.USER_LIMIT) || Infinity`; `none`
models the `Infinity` default, for which the comparison is false. -/
def overLimit : Option Nat → Nat → Bool
  | none, _ => false
  | some l, n => l < n

/-- The `join-room` handler of revision 2: after `socket.join(roomID)`
read `clientAdapter = rooms.get(roomID)` and
`clients = Array.from(clientAdapter || [])`; if `clients.length`
exceeds the user limit, make every client of the room leave it and
return without emitting; else if the adapter entry exists with size at
most 1 emit `first-in-room` to the joiner, otherwise `new-user` to the
other members; finally emit `room-user-change` with `clients` to the
whole room. -/
def joinRoomHandler2 (userLimit : Option Nat) (s : ServerState)
    (sid : SocketId) (roomID : RoomId) : ServerState × List Emit :=
  let s' := joinRoom s sid roomID
  let clientAdapter := getRoom s' roomID
  let clients := clientAdapter.getD []
  if overLimit userLimit clients.length then
    (clients.foldl (fun st c => leaveRoom st c roomID) s', [])
  else
    let firstOrNew :=
      match clientAdapter with
      | some ca =>
          if ca.length ≤ 1 then
            [⟨"first-in-room", [sid], Payload.empty, false⟩]
          else
            [⟨"new-user", clients.filter (fun x => x != sid),
              Payload.sid sid, false⟩]
      | none =>
          [⟨"new-user", clients.filter (fun x => x != sid),
            Payload.sid sid, false⟩]
    (s', firstOrNew ++
      [⟨"room-user-change", clients, Payload.idList clients, false⟩])

/-! ### Follow subscription manager (modelled from the spec)

Neither revision under src/ registers a `user-follow` handler or emits
`broadcast-unfollow`; the spec describes the follow subsystem of the
repository (sections 4.4, 4.5 and 6), so it is modelled here from the
spec's words. -/

/-- Modelled from the spec: a follow room's key is the reserved string
"follow@" concatenated with the followed connection's identity
(the `user-follow` handler is missing from src/). -/
def followRoomKey (target : SocketId) : RoomId :=
  "follow@" ++ target

/-- Modelled from the spec: whether a room key designates a follow
room, i.e. starts with the reserved "follow@" marker (the follow-room
branch of the Disconnect Handler is missing from src/). -/
def isFollowRoom (r : RoomId) : Bool :=
  decide (r.data.take 7 = "follow@".data)

/-- Modelled from the spec: the target identity recovered by stripping
the reserved "follow@" marker (7 characters) from a follow room's key. -/
def followTarget (r : RoomId) : SocketId :=
  String.mk (r.data.drop 7)

/-- The `action` field of a `user-follow` event payload. -/
inductive FollowAction where
  | FOLLOW : FollowAction
  | UNFOLLOW : FollowAction
deriving Repr, DecidableEq

/-- Modelled from the spec: the `user-follow` handler, which is missing
from src/.  On FOLLOW the follower joins the room keyed by the target's
identity, then the full current follower list of that room is emitted
as `user-follow-room-change` to the target connection only.  On
UNFOLLOW the follower leaves that room, the recomputed follower list is
emitted the same way, and when the last follower has left, one
`broadcast-unfollow` is emitted to the target. -/
def userFollowHandler (s : ServerState) (sid : SocketId)
    (target : SocketId) (action : FollowAction) : ServerState × List Emit :=
  let roomID := followRoomKey target
  match action with
  | FollowAction.FOLLOW =>
      let s' := joinRoom s sid roomID
      let followedBy := members s' roomID
      (s', [⟨"user-follow-room-change", [target],
            Payload.idList followedBy, false⟩])
  | FollowAction.UNFOLLOW =>
      let s' := leaveRoom s sid roomID
      let followedBy := members s' roomID
      (s', [⟨"user-follow-room-change", [target],
            Payload.idList followedBy, false⟩] ++
        (if followedBy = [] then
          [⟨"broadcast-unfollow", [target], Payload.empty, false⟩]
        else []))

/-- Modelled from the spec: the per-room body of the Disconnect Handler
in the revision with follow support, which is missing from src/.  For
each room, compute the remaining member list without the disconnecting
connection; for an ordinary room with a non-empty remainder emit
`room-user-change` to the remaining members; for a follow room whose
remainder is now empty emit `broadcast-unfollow` to the target derived
from the room key. -/
def specDisconnectRoomEmits (s : ServerState) (sid : SocketId)
    (roomID : RoomId) : List Emit :=
  let remaining := (members s roomID).filter (fun x => x != sid)
  (if isFollowRoom roomID = false ∧ remaining ≠ [] then
      [⟨"room-user-change", remaining, Payload.idList remaining, false⟩]
    else []) ++
  (if isFollowRoom roomID = true ∧ remaining = [] then
      [⟨"broadcast-unfollow", [followTarget roomID], Payload.empty, false⟩]
    else [])

/-- Modelled from the spec: the Disconnect Handler of the revision with
follow support (missing from src/), iterating over every room the
connection belongs to. -/
def specDisconnectingHandler (s : ServerState) (sid : SocketId) : List Emit :=
  (socketRooms s sid).flatMap (specDisconnectRoomEmits s sid)

/-! ### Registry lemmas -/

theorem mem_members_joinRoom (s : ServerState) (sid : SocketId) (r : RoomId) :
    sid ∈ members (joinRoom s sid r) r := by
  obtain ⟨l⟩ := s
  show sid ∈ members ⟨addToRoom l r sid⟩ r
  induction l with
  | nil => simp [members, getRoom, addToRoom, lookupRoom]
  | cons p rest ih =>
    obtain ⟨r', ms⟩ := p
    by_cases h : r' = r
    · subst h
      by_cases hm : sid ∈ ms <;>
        simp [members, getRoom, addToRoom, lookupRoom, hm]
    · simpa [members, getRoom, addToRoom, lookupRoom, h] using ih

theorem getRoom_joinRoom_isSome (s : ServerState) (sid : SocketId) (r : RoomId) :
    (getRoom (joinRoom s sid r) r).isSome = true := by
  have h := mem_members_joinRoom s sid r
  unfold members at h
  cases hg : getRoom (joinRoom s sid r) r with
  | none => rw [hg] at h; simp at h
  | some ms => rfl

theorem joinRoom_of_mem (s : ServerState) (sid : SocketId) (r : RoomId)
    (h : sid ∈ members s r) : joinRoom s sid r = s := by
  obtain ⟨l⟩ := s
  show (⟨addToRoom l r sid⟩ : ServerState) = ⟨l⟩
  induction l with
  | nil => simp [members, getRoom, lookupRoom] at h
  | cons p rest ih =>
    obtain ⟨r', ms⟩ := p
    by_cases hr : r' = r
    · subst hr
      have hm : sid ∈ ms := by
        simpa [members, getRoom, lookupRoom] using h
      simp [addToRoom, hm]
    · have h' : sid ∈ members ⟨rest⟩ r := by
        simpa [members, getRoom, lookupRoom, hr] using h
      have := ih h'
      simp only [ServerState.mk.injEq] at this
      simp [addToRoom, hr, this]

theorem lookupRoom_eq_none_of_not_mem_keys
    (l : List (RoomId × List SocketId)) (r : RoomId)
    (h : r ∉ l.map (fun p => p.1)) : lookupRoom l r = none := by
  induction l with
  | nil => rfl
  | cons p rest ih =>
    obtain ⟨r', ms⟩ := p
    simp only [List.map_cons, List.mem_cons] at h
    push_neg at h
    have hne : r' ≠ r := fun hh => h.1 hh.symm
    simp [lookupRoom, hne, ih h.2]

theorem leaveRoom_of_getRoom_none (s : ServerState) (sid : SocketId)
    (r : RoomId) (h : getRoom s r = none) : leaveRoom s sid r = s := by
  obtain ⟨l⟩ := s
  show (⟨removeFromRoom l r sid⟩ : ServerState) = ⟨l⟩
  induction l with
  | nil => rfl
  | cons p rest ih =>
    obtain ⟨r', ms⟩ := p
    by_cases hr : r' = r
    · subst hr
      simp [getRoom, lookupRoom] at h
    · have h' : getRoom (⟨rest⟩ : ServerState) r = none := by
        simpa [getRoom, lookupRoom, hr] using h
      have := ih h'
      simp only [ServerState.mk.injEq] at this
      simp [removeFromRoom, hr, this]

theorem getRoom_isSome_of_mem_socketRooms (s : ServerState) (sid : SocketId)
    (r : RoomId) (h : r ∈ socketRooms s sid) :
    (getRoom s r).isSome = true := by
  obtain ⟨l⟩ := s
  unfold socketRooms at h
  simp only [List.mem_map, List.mem_filter] at h
  obtain ⟨⟨r', ms⟩, ⟨hmem, _⟩, heq⟩ := h
  subst heq
  show (lookupRoom l r').isSome = true
  induction l with
  | nil => simp at hmem
  | cons p rest ih =>
    obtain ⟨r'', ms''⟩ := p
    by_cases hr : r'' = r'
    · simp [lookupRoom, hr]
    · rcases List.mem_cons.mp hmem with hh | hh
      · exact absurd (congrArg (fun p => p.1) hh).symm hr
      · simpa [lookupRoom, hr] using ih hh

theorem members_leaveRoom (s : ServerState) (sid : SocketId) (r : RoomId)
    (hwf : WF s) :
    members (leaveRoom s sid r) r = (members s r).filter (fun x => x != sid) := by
  obtain ⟨l⟩ := s
  unfold WF at hwf
  show members ⟨removeFromRoom l r sid⟩ r =
    (members ⟨l⟩ r).filter (fun x => x != sid)
  induction l with
  | nil => simp [members, getRoom, lookupRoom, removeFromRoom]
  | cons p rest ih =>
    obtain ⟨r', ms⟩ := p
    simp only [List.map_cons, List.nodup_cons] at hwf
    by_cases hr : r' = r
    · subst hr
      by_cases he : ms.filter (fun x => x != sid) = []
      · have hn : lookupRoom rest r' = none :=
          lookupRoom_eq_none_of_not_mem_keys rest r' hwf.1
        simp [members, getRoom, lookupRoom, removeFromRoom, he, hn]
      · simp [members, getRoom, lookupRoom, removeFromRoom, he]
    · simpa [members, getRoom, lookupRoom, removeFromRoom, hr]
        using ih hwf.2

theorem mem_keys_addToRoom (l : List (RoomId × List SocketId))
    (r : RoomId) (sid : SocketId) (x : RoomId)
    (h : x ∈ (addToRoom l r sid).map (fun p => p.1)) :
    x ∈ l.map (fun p => p.1) ∨ x = r := by
  induction l with
  | nil => simpa [addToRoom] using h
  | cons p rest ih =>
    obtain ⟨r', ms⟩ := p
    by_cases hr : r' = r
    · subst hr
      exact Or.inl (by simpa [addToRoom] using h)
    · simp only [addToRoom, hr, if_false, List.map_cons, List.mem_cons] at h ⊢
      rcases h with h | h
      · exact Or.inl (Or.inl h)
      · rcases ih h with h' | h'
        · exact Or.inl (Or.inr h')
        · exact Or.inr h'

theorem WF_joinRoom (s : ServerState) (sid : SocketId) (r : RoomId)
    (hwf : WF s) : WF (joinRoom s sid r) := by
  obtain ⟨l⟩ := s
  unfold WF at hwf ⊢
  show ((addToRoom l r sid).map (fun p => p.1)).Nodup
  induction l with
  | nil => simp [addToRoom]
  | cons p rest ih =>
    obtain ⟨r', ms⟩ := p
    simp only [List.map_cons, List.nodup_cons] at hwf
    by_cases hr : r' = r
    · subst hr
      simpa [addToRoom] using hwf
    · simp only [addToRoom, hr, if_false, List.map_cons, List.nodup_cons]
      refine ⟨fun hx => ?_, ih hwf.2⟩
      rcases mem_keys_addToRoom rest r sid r' hx with h' | h'
      · exact hwf.1 h'
      · exact hr h'

theorem mem_keys_removeFromRoom (l : List (RoomId × List SocketId))
    (r : RoomId) (sid : SocketId) (x : RoomId)
    (h : x ∈ (removeFromRoom l r sid).map (fun p => p.1)) :
    x ∈ l.map (fun p => p.1) := by
  induction l with
  | nil => simp [removeFromRoom] at h
  | cons p rest ih =>
    obtain ⟨r', ms⟩ := p
    by_cases hr : r' = r
    · subst hr
      by_cases he : ms.filter (fun x => x != sid) = []
      · simp only [removeFromRoom, if_pos rfl, he, if_pos rfl] at h
        exact List.mem_cons_of_mem _ h
      · exact by simpa [removeFromRoom, he] using h
    · simp only [removeFromRoom, hr, if_false, List.map_cons,
        List.mem_cons] at h ⊢
      rcases h with h | h
      · exact Or.inl h
      · exact Or.inr (ih h)

theorem WF_leaveRoom (s : ServerState) (sid : SocketId) (r : RoomId)
    (hwf : WF s) : WF (leaveRoom s sid r) := by
  obtain ⟨l⟩ := s
  unfold WF at hwf ⊢
  show ((removeFromRoom l r sid).map (fun p => p.1)).Nodup
  induction l with
  | nil => simp [removeFromRoom]
  | cons p rest ih =>
    obtain ⟨r', ms⟩ := p
    simp only [List.map_cons, List.nodup_cons] at hwf
    by_cases hr : r' = r
    · subst hr
      by_cases he : ms.filter (fun x => x != sid) = []
      · simpa [removeFromRoom, he] using hwf.2
      · simpa [removeFromRoom, he] using hwf
    · simp only [removeFromRoom, hr, if_false, List.map_cons, List.nodup_cons]
      exact ⟨fun hx => hwf.1 (mem_keys_removeFromRoom rest r sid r' hx),
        ih hwf.2⟩

theorem members_foldl_leave (cs : List SocketId) (st : ServerState)
    (r : RoomId) (hwf : WF st) (hsub : ∀ x ∈ members st r, x ∈ cs) :
    members (cs.foldl (fun acc c => leaveRoom acc c r) st) r = [] := by
  induction cs generalizing st with
  | nil =>
    rcases hm : members st r with _ | ⟨x, xs⟩
    · simpa using hm
    · exact absurd (hsub x (by rw [hm]; exact List.mem_cons_self x xs))
        (List.not_mem_nil x)
  | cons c cs ih =>
    simp only [List.foldl_cons]
    refine ih (leaveRoom st c r) (WF_leaveRoom st c r hwf) ?_
    intro x hx
    rw [members_leaveRoom st c r hwf] at hx
    rw [List.mem_filter] at hx
    have hx2 : x ≠ c := by simpa using hx.2
    rcases List.mem_cons.mp (hsub x hx.1) with h | h
    · exact absurd h hx2
    · exact h

/-! ### Claim theorems -/

/-- C3: a `server-broadcast` event for (roomID, payload, aux) produces
exactly one `client-broadcast` delivery carrying the same payload and
auxiliary bytes unmodified, addressed to every member of the room
except the sender and never to the sender. -/
theorem server_broadcast_exact_fanout (s : ServerState) (sid : SocketId)
    (roomID : RoomId) (encryptedData iv : List Nat) :
    ∃ recips : List SocketId,
      serverBroadcastHandler s sid roomID encryptedData iv =
        [⟨"client-broadcast", recips, Payload.bytes encryptedData iv, false⟩] ∧
      (∀ m ∈ members s roomID, m ≠ sid → m ∈ recips) ∧
      sid ∉ recips ∧
      (∀ x ∈ recips, x ∈ members s roomID ∧ x ≠ sid) := by
  refine ⟨(members s roomID).filter (fun x => x != sid), rfl, ?_, ?_, ?_⟩
  · intro m hm hne
    rw [List.mem_filter]
    exact ⟨hm, by simpa using hne⟩
  · intro hc
    rw [List.mem_filter] at hc
    simp at hc
  · intro x hx
    rw [List.mem_filter] at hx
    exact ⟨hx.1, by simpa using hx.2⟩

/-- C7: a `server-volatile-broadcast` event has fan-out identical to
the reliable `server-broadcast` (same event name, same recipients,
same payload and aux), the only difference being the volatile flag,
which is set on every emission it produces. -/
theorem volatile_broadcast_same_addressing (s : ServerState)
    (sid : SocketId) (roomID : RoomId) (encryptedData iv : List Nat) :
    (serverVolatileBroadcastHandler s sid roomID encryptedData iv).map
        (fun e => ⟨e.event, e.recipients, e.payload, false⟩) =
      serverBroadcastHandler s sid roomID encryptedData iv ∧
    ∀ e ∈ serverVolatileBroadcastHandler s sid roomID encryptedData iv,
      e.volatile = true := by
  constructor
  · rfl
  · intro e he
    simp only [serverVolatileBroadcastHandler, List.mem_singleton] at he
    rw [he]

/-- C6: joining a room is idempotent with respect to membership: when
the socket is already a member of the room, a repeated join leaves the
whole registry, and in particular the room's member list and its size,
unchanged. -/
theorem joinRoom_idempotent (s : ServerState) (sid : SocketId) (r : RoomId) :
    (sid ∈ members s r → joinRoom s sid r = s) ∧
    joinRoom (joinRoom s sid r) sid r = joinRoom s sid r ∧
    members (joinRoom (joinRoom s sid r) sid r) r =
      members (joinRoom s sid r) r ∧
    (members (joinRoom (joinRoom s sid r) sid r) r).length =
      (members (joinRoom s sid r) r).length := by
  have h2 : joinRoom (joinRoom s sid r) sid r = joinRoom s sid r :=
    joinRoom_of_mem (joinRoom s sid r) sid r (mem_members_joinRoom s sid r)
  exact ⟨joinRoom_of_mem s sid r, h2, by rw [h2], by rw [h2]⟩

/-- C6 witness: with socket "a" already the sole member of room "r1",
a second join leaves the registry unchanged. -/
theorem joinRoom_idempotent_witness :
    "a" ∈ members ⟨[("r1", ["a"])]⟩ "r1" ∧
    joinRoom ⟨[("r1", ["a"])]⟩ "a" "r1" = ⟨[("r1", ["a"])]⟩ :=
  ⟨by decide, (joinRoom_idempotent ⟨[("r1", ["a"])]⟩ "a" "r1").1 (by decide)⟩

/-- C4 (modelled from the spec, the `user-follow` handler being absent
from src/): a `user-follow` event with action FOLLOW and target T makes
the follower join the room keyed "follow@" ++ T, after which exactly
one `user-follow-room-change` is emitted, addressed to T only, carrying
the full current follower list of that room. -/
theorem user_follow_FOLLOW_behavior (s : ServerState)
    (sid target : SocketId) :
    (userFollowHandler s sid target FollowAction.FOLLOW).1 =
      joinRoom s sid (followRoomKey target) ∧
    sid ∈ members (userFollowHandler s sid target FollowAction.FOLLOW).1
      (followRoomKey target) ∧
    (userFollowHandler s sid target FollowAction.FOLLOW).2 =
      [⟨"user-follow-room-change", [target],
        Payload.idList (members (joinRoom s sid (followRoomKey target))
          (followRoomKey target)), false⟩] := by
  exact ⟨rfl, mem_members_joinRoom s sid (followRoomKey target), rfl⟩

/-- C1: after a `join-room` for room R is applied, the joiner is a
member of R; when the resulting membership size is at most 1 the
handler emits `first-in-room` to the joiner only, and otherwise
`new-user` with the joiner's identity to every other current member;
in either case it emits `room-user-change` to the entire room
(membership list as recipients, which includes the joiner) carrying
the full post-join member list.  The revision 2 handler behaves
identically whenever the configured user limit is not exceeded. -/
theorem join_room_presence (s : ServerState) (sid : SocketId)
    (roomID : RoomId) (userLimit : Option Nat)
    (hlim : overLimit userLimit
      (members (joinRoom s sid roomID) roomID).length = false) :
    (joinRoomHandler s sid roomID).1 = joinRoom s sid roomID ∧
    sid ∈ members (joinRoom s sid roomID) roomID ∧
    ((members (joinRoom s sid roomID) roomID).length ≤ 1 →
      (joinRoomHandler s sid roomID).2 =
        [⟨"first-in-room", [sid], Payload.empty, false⟩,
         ⟨"room-user-change", members (joinRoom s sid roomID) roomID,
          Payload.idList (members (joinRoom s sid roomID) roomID), false⟩]) ∧
    (1 < (members (joinRoom s sid roomID) roomID).length →
      (joinRoomHandler s sid roomID).2 =
        [⟨"new-user",
          (members (joinRoom s sid roomID) roomID).filter (fun x => x != sid),
          Payload.sid sid, false⟩,
         ⟨"room-user-change", members (joinRoom s sid roomID) roomID,
          Payload.idList (members (joinRoom s sid roomID) roomID), false⟩]) ∧
    joinRoomHandler2 userLimit s sid roomID = joinRoomHandler s sid roomID := by
  refine ⟨rfl, mem_members_joinRoom s sid roomID, ?_, ?_, ?_⟩
  · intro h
    simp [joinRoomHandler, h]
  · intro h
    have h' : ¬ (members (joinRoom s sid roomID) roomID).length ≤ 1 :=
      not_le.mpr h
    simp [joinRoomHandler, h']
  · have hsome := getRoom_joinRoom_isSome s sid roomID
    obtain ⟨ca, hca⟩ := Option.isSome_iff_exists.mp hsome
    have hms : members (joinRoom s sid roomID) roomID = ca := by
      unfold members
      rw [hca]
      rfl
    rw [hms] at hlim
    simp [joinRoomHandler2, joinRoomHandler, hca, hms, hlim]

/-- C1 witness: a first join of "a" into "r1" on an empty registry,
with no user limit configured. -/
theorem join_room_presence_witness :
    overLimit none (members (joinRoom ⟨[]⟩ "a" "r1") "r1").length = false ∧
    "a" ∈ members (joinRoom (⟨[]⟩ : ServerState) "a" "r1") "r1" ∧
    joinRoomHandler2 none ⟨[]⟩ "a" "r1" = joinRoomHandler ⟨[]⟩ "a" "r1" ∧
    (joinRoomHandler ⟨[]⟩ "a" "r1").2 =
      [⟨"first-in-room", ["a"], Payload.empty, false⟩,
       ⟨"room-user-change", ["a"], Payload.idList ["a"], false⟩] :=
  ⟨by decide,
   (join_room_presence ⟨[]⟩ "a" "r1" none (by decide)).2.1,
   (join_room_presence ⟨[]⟩ "a" "r1" none (by decide)).2.2.2.2,
   by rw [(join_room_presence ⟨[]⟩ "a" "r1" none (by decide)).2.2.1
        (by decide)]
      decide⟩

/-- C2: on connection teardown, for every room the disconnecting
socket belongs to, with `clients` the member list without the
disconnecting socket: the disconnected identity is never in `clients`;
if `clients` is non-empty the handler emits exactly one
`room-user-change` for that room, addressed to `clients` and carrying
exactly `clients`, and that emission is produced by the full
`disconnecting` handler; if `clients` is empty, no `room-user-change`
is emitted for that room. -/
theorem disconnect_room_user_change (s : ServerState) (sid : SocketId)
    (roomID : RoomId) (hmem : roomID ∈ socketRooms s sid) :
    sid ∉ (members s roomID).filter (fun x => x != sid) ∧
    ((members s roomID).filter (fun x => x != sid) ≠ [] →
      (disconnectRoomEmits s sid roomID).filter
          (fun e => e.event == "room-user-change") =
        [⟨"room-user-change", (members s roomID).filter (fun x => x != sid),
          Payload.idList ((members s roomID).filter (fun x => x != sid)),
          false⟩] ∧
      (⟨"room-user-change", (members s roomID).filter (fun x => x != sid),
        Payload.idList ((members s roomID).filter (fun x => x != sid)),
        false⟩ : Emit) ∈ disconnectingHandler s sid) ∧
    ((members s roomID).filter (fun x => x != sid) = [] →
      (disconnectRoomEmits s sid roomID).filter
          (fun e => e.event == "room-user-change") = []) := by
  refine ⟨?_, ?_, ?_⟩
  · intro hc
    rw [List.mem_filter] at hc
    simp at hc
  · intro h
    have hl : 0 < ((members s roomID).filter (fun x => x != sid)).length :=
      List.length_pos.mpr h
    have hfil : (disconnectRoomEmits s sid roomID).filter
        (fun e => e.event == "room-user-change") =
        [⟨"room-user-change", (members s roomID).filter (fun x => x != sid),
          Payload.idList ((members s roomID).filter (fun x => x != sid)),
          false⟩] := by
      by_cases hr : roomID = sid
      · subst hr
        simp [disconnectRoomEmits, hl]
      · simp [disconnectRoomEmits, hr, hl]
    refine ⟨hfil, ?_⟩
    have hin : (⟨"room-user-change",
        (members s roomID).filter (fun x => x != sid),
        Payload.idList ((members s roomID).filter (fun x => x != sid)),
        false⟩ : Emit) ∈ disconnectRoomEmits s sid roomID := by
      by_cases hr : roomID = sid
      · subst hr
        simp [disconnectRoomEmits, hl]
      · simp [disconnectRoomEmits, hr, hl]
    exact List.mem_flatMap.mpr ⟨roomID, hmem, hin⟩
  · intro h
    by_cases hr : roomID = sid
    · subst hr
      simp [disconnectRoomEmits, h]
    · simp [disconnectRoomEmits, hr, h]

/-- C2 witness: "a" and "b" share room "r1"; when "a" disconnects, the
single `room-user-change` for "r1" goes to ["b"] carrying ["b"]. -/
theorem disconnect_room_user_change_witness :
    "r1" ∈ socketRooms ⟨[("r1", ["a", "b"])]⟩ "a" ∧
    (members ⟨[("r1", ["a", "b"])]⟩ "r1").filter (fun x => x != "a") ≠ [] ∧
    (disconnectRoomEmits ⟨[("r1", ["a", "b"])]⟩ "a" "r1").filter
        (fun e => e.event == "room-user-change") =
      [⟨"room-user-change", ["b"], Payload.idList ["b"], false⟩] :=
  ⟨by decide, by decide, by
    rw [((disconnect_room_user_change ⟨[("r1", ["a", "b"])]⟩ "a" "r1"
      (by decide)).2.1 (by decide)).1]
    decide⟩

/-- C10: on connection teardown, for every room the socket belongs to
whose id differs from the socket's own id, the handler emits exactly
one `user has left` for that room, carrying the disconnecting socket's
identity and addressed to the other members, and the full handler
produces it; for the socket's private self-room no `user has left` is
ever emitted. -/
theorem disconnect_user_has_left (s : ServerState) (sid : SocketId)
    (roomID : RoomId) (hmem : roomID ∈ socketRooms s sid) :
    (roomID ≠ sid →
      (disconnectRoomEmits s sid roomID).filter
          (fun e => e.event == "user has left") =
        [⟨"user has left", (members s roomID).filter (fun x => x != sid),
          Payload.sid sid, false⟩] ∧
      (⟨"user has left", (members s roomID).filter (fun x => x != sid),
        Payload.sid sid, false⟩ : Emit) ∈ disconnectingHandler s sid) ∧
    (roomID = sid →
      (disconnectRoomEmits s sid roomID).filter
          (fun e => e.event == "user has left") = []) := by
  constructor
  · intro hr
    constructor
    · by_cases hl : 0 < ((members s roomID).filter (fun x => x != sid)).length <;>
        simp [disconnectRoomEmits, hr, hl]
    · have hin : (⟨"user has left",
          (members s roomID).filter (fun x => x != sid),
          Payload.sid sid, false⟩ : Emit) ∈
            disconnectRoomEmits s sid roomID := by
        by_cases hl :
            0 < ((members s roomID).filter (fun x => x != sid)).length <;>
          simp [disconnectRoomEmits, hr, hl]
      exact List.mem_flatMap.mpr ⟨roomID, hmem, hin⟩
  · intro hr
    by_cases hl : 0 < ((members s roomID).filter (fun x => x != sid)).length <;>
      simp [disconnectRoomEmits, hr, hl]

/-- C10 witness: "a" disconnecting from shared room "r1" produces
`user has left` to ["b"]; for the self-room "a" nothing is produced. -/
theorem disconnect_user_has_left_witness :
    "r1" ∈ socketRooms ⟨[("r1", ["a", "b"]), ("a", ["a"])]⟩ "a" ∧
    "a" ∈ socketRooms ⟨[("r1", ["a", "b"]), ("a", ["a"])]⟩ "a" ∧
    (disconnectRoomEmits ⟨[("r1", ["a", "b"]), ("a", ["a"])]⟩ "a" "r1").filter
        (fun e => e.event == "user has left") =
      [⟨"user has left", ["b"], Payload.sid "a", false⟩] ∧
    (disconnectRoomEmits ⟨[("r1", ["a", "b"]), ("a", ["a"])]⟩ "a" "a").filter
        (fun e => e.event == "user has left") = [] :=
  ⟨by decide, by decide,
   by
     rw [((disconnect_user_has_left ⟨[("r1", ["a", "b"]), ("a", ["a"])]⟩
       "a" "r1" (by decide)).1 (by decide)).1]
     decide,
   (disconnect_user_has_left ⟨[("r1", ["a", "b"]), ("a", ["a"])]⟩
     "a" "a" (by decide)).2 rfl⟩

/-- C9: in revision 2 with a configured user limit, when a join makes
the room's member count exceed the limit, the handler removes every
member from the room (its membership becomes empty) and returns
without emitting anything. -/
theorem user_limit_eviction (userLimit : Nat) (s : ServerState)
    (sid : SocketId) (roomID : RoomId) (hwf : WF s)
    (hover : userLimit < (members (joinRoom s sid roomID) roomID).length) :
    (joinRoomHandler2 (some userLimit) s sid roomID).2 = [] ∧
    members (joinRoomHandler2 (some userLimit) s sid roomID).1 roomID = [] := by
  have hsome := getRoom_joinRoom_isSome s sid roomID
  obtain ⟨ca, hca⟩ := Option.isSome_iff_exists.mp hsome
  have hms : members (joinRoom s sid roomID) roomID = ca := by
    unfold members
    rw [hca]
    rfl
  have h' : userLimit < ca.length := hms ▸ hover
  have hov : overLimit (some userLimit) ca.length = true := by
    simp [overLimit, h']
  constructor
  · simp [joinRoomHandler2, hca, hov]
  · have hred : (joinRoomHandler2 (some userLimit) s sid roomID).1 =
        ca.foldl (fun acc c => leaveRoom acc c roomID)
          (joinRoom s sid roomID) := by
      simp [joinRoomHandler2, hca, hov]
    rw [hred]
    refine members_foldl_leave ca (joinRoom s sid roomID) roomID
      (WF_joinRoom s sid roomID hwf) ?_
    intro x hx
    rw [hms] at hx
    exact hx

/-- C9 witness: with user limit 0, the first join of "a" into "r1"
exceeds the limit, the room is emptied, and nothing is emitted. -/
theorem user_limit_eviction_witness :
    WF (⟨[]⟩ : ServerState) ∧
    0 < (members (joinRoom ⟨[]⟩ "a" "r1") "r1").length ∧
    (joinRoomHandler2 (some 0) ⟨[]⟩ "a" "r1").2 = [] ∧
    members (joinRoomHandler2 (some 0) ⟨[]⟩ "a" "r1").1 "r1" = [] :=
  ⟨by decide, by decide,
   (user_limit_eviction 0 ⟨[]⟩ "a" "r1" (by decide) (by decide)).1,
   (user_limit_eviction 0 ⟨[]⟩ "a" "r1" (by decide) (by decide)).2⟩

/-- C8: a membership query for a room with no registry entry returns
the empty set rather than erroring, a leave (and hence an unfollow) of
an unknown room is a no-op, and no core handler dereferences a missing
registry entry: the `join-room` handler's post-join lookup always
finds an entry, and every room id enumerated by the `disconnecting`
handler (the socket's own room set) has a registry entry. -/
theorem room_lookup_never_fails (s : ServerState) (sid : SocketId)
    (r r' : RoomId) (target : SocketId) :
    (getRoom s r = none → members s r = [] ∧ leaveRoom s sid r = s) ∧
    (getRoom (joinRoom s sid r) r).isSome = true ∧
    (r' ∈ socketRooms s sid → (getRoom s r').isSome = true) ∧
    (getRoom s (followRoomKey target) = none →
      (userFollowHandler s sid target FollowAction.UNFOLLOW).1 = s) := by
  refine ⟨fun h => ⟨?_, leaveRoom_of_getRoom_none s sid r h⟩,
    getRoom_joinRoom_isSome s sid r,
    getRoom_isSome_of_mem_socketRooms s sid r',
    fun h => leaveRoom_of_getRoom_none s sid (followRoomKey target) h⟩
  unfold members
  rw [h]
  rfl

/-- C8 witness: querying the unknown room "nope" yields the empty set,
leaving it is a no-op, the lookups of the join and disconnect paths
succeed, and an unfollow of the never-followed target "t" is a no-op. -/
theorem room_lookup_never_fails_witness :
    members ⟨[("r1", ["a"])]⟩ "nope" = [] ∧
    leaveRoom ⟨[("r1", ["a"])]⟩ "a" "nope" = ⟨[("r1", ["a"])]⟩ ∧
    (getRoom (joinRoom ⟨[("r1", ["a"])]⟩ "a" "r2") "r2").isSome = true ∧
    (getRoom ⟨[("r1", ["a"])]⟩ "r1").isSome = true ∧
    (userFollowHandler ⟨[("r1", ["a"])]⟩ "a" "t"
      FollowAction.UNFOLLOW).1 = ⟨[("r1", ["a"])]⟩ :=
  ⟨((room_lookup_never_fails ⟨[("r1", ["a"])]⟩ "a" "nope" "r1" "t").1
      (by decide)).1,
   ((room_lookup_never_fails ⟨[("r1", ["a"])]⟩ "a" "nope" "r1" "t").1
      (by decide)).2,
   (room_lookup_never_fails ⟨[("r1", ["a"])]⟩ "a" "r2" "r1" "t").2.1,
   (room_lookup_never_fails ⟨[("r1", ["a"])]⟩ "a" "nope" "r1" "t").2.2.1
      (by decide),
   (room_lookup_never_fails ⟨[("r1", ["a"])]⟩ "a" "nope" "r1" "t").2.2.2
      (by decide)⟩

/-- C5 (modelled from the spec, the follow subsystem being absent from
src/): when the last follower of a follow room leaves, by unfollow or
by disconnect, exactly one `broadcast-unfollow` is emitted, addressed
to the target whose identity is recovered by stripping the reserved
marker from the room key; while at least one other follower remains,
no `broadcast-unfollow` is emitted for that room. -/
theorem broadcast_unfollow_on_last_leave (s : ServerState)
    (sid target : SocketId) (roomID : RoomId) :
    (members (leaveRoom s sid (followRoomKey target))
        (followRoomKey target) = [] →
      (userFollowHandler s sid target FollowAction.UNFOLLOW).2.filter
          (fun e => e.event == "broadcast-unfollow") =
        [⟨"broadcast-unfollow", [target], Payload.empty, false⟩]) ∧
    (members (leaveRoom s sid (followRoomKey target))
        (followRoomKey target) ≠ [] →
      (userFollowHandler s sid target FollowAction.UNFOLLOW).2.filter
          (fun e => e.event == "broadcast-unfollow") = []) ∧
    (isFollowRoom roomID = true →
      ((members s roomID).filter (fun x => x != sid) = [] →
        (specDisconnectRoomEmits s sid roomID).filter
            (fun e => e.event == "broadcast-unfollow") =
          [⟨"broadcast-unfollow", [followTarget roomID],
            Payload.empty, false⟩] ∧
        (roomID ∈ socketRooms s sid →
          (⟨"broadcast-unfollow", [followTarget roomID],
            Payload.empty, false⟩ : Emit) ∈
            specDisconnectingHandler s sid)) ∧
      ((members s roomID).filter (fun x => x != sid) ≠ [] →
        (specDisconnectRoomEmits s sid roomID).filter
            (fun e => e.event == "broadcast-unfollow") = [])) ∧
    followTarget (followRoomKey target) = target := by
  refine ⟨?_, ?_, fun hf => ⟨fun h => ⟨?_, fun hmem => ?_⟩, fun h => ?_⟩, ?_⟩
  · intro h
    simp [userFollowHandler, h]
  · intro h
    simp [userFollowHandler, h]
  · simp [specDisconnectRoomEmits, hf, h]
  · have hin : (⟨"broadcast-unfollow", [followTarget roomID],
        Payload.empty, false⟩ : Emit) ∈
          specDisconnectRoomEmits s sid roomID := by
      simp [specDisconnectRoomEmits, hf, h]
    exact List.mem_flatMap.mpr ⟨roomID, hmem, hin⟩
  · simp [specDisconnectRoomEmits, hf, h]
  · obtain ⟨td⟩ := target
    show String.mk ((("follow@" : String) ++ ⟨td⟩).data.drop 7) = ⟨td⟩
    rw [String.data_append,
      show (7 : Nat) = ("follow@" : String).data.length from rfl,
      List.drop_left]

/-- C5 witness: "a" is the sole follower of "b"; an unfollow, or a
disconnect of "a", each produce exactly one `broadcast-unfollow`
addressed to "b". -/
theorem broadcast_unfollow_on_last_leave_witness :
    (userFollowHandler ⟨[("follow@b", ["a"])]⟩ "a" "b"
        FollowAction.UNFOLLOW).2.filter
        (fun e => e.event == "broadcast-unfollow") =
      [⟨"broadcast-unfollow", ["b"], Payload.empty, false⟩] ∧
    (specDisconnectRoomEmits ⟨[("follow@b", ["a"])]⟩ "a" "follow@b").filter
        (fun e => e.event == "broadcast-unfollow") =
      [⟨"broadcast-unfollow", ["b"], Payload.empty, false⟩] ∧
    (⟨"broadcast-unfollow", ["b"], Payload.empty, false⟩ : Emit) ∈
      specDisconnectingHandler ⟨[("follow@b", ["a"])]⟩ "a" :=
  ⟨(broadcast_unfollow_on_last_leave ⟨[("follow@b", ["a"])]⟩ "a" "b"
      "follow@b").1 (by decide),
   by
     rw [((broadcast_unfollow_on_last_leave ⟨[("follow@b", ["a"])]⟩ "a" "b"
       "follow@b").2.2.1 (by decide) |>.1 (by decide)).1]
     decide,
   ((broadcast_unfollow_on_last_leave ⟨[("follow@b", ["a"])]⟩ "a" "b"
       "follow@b").2.2.1 (by decide) |>.1 (by decide)).2 (by decide)⟩

/-- C3 witness: with "a" and "b" in room "r1", a broadcast from "a"
fans out with the exact payload to a recipient set containing "b" and
not "a". -/
theorem server_broadcast_exact_fanout_witness :
    ∃ recips : List SocketId,
      serverBroadcastHandler ⟨[("r1", ["a", "b"])]⟩ "a" "r1" [1, 2] [3] =
        [⟨"client-broadcast", recips, Payload.bytes [1, 2] [3], false⟩] ∧
      (∀ m ∈ members ⟨[("r1", ["a", "b"])]⟩ "r1", m ≠ "a" → m ∈ recips) ∧
      "a" ∉ recips ∧
      (∀ x ∈ recips, x ∈ members ⟨[("r1", ["a", "b"])]⟩ "r1" ∧ x ≠ "a") :=
  server_broadcast_exact_fanout ⟨[("r1", ["a", "b"])]⟩ "a" "r1" [1, 2] [3]

/-- C7 witness: the volatile broadcast at a concrete state differs
from the reliable one only in the volatile flag. -/
theorem volatile_broadcast_same_addressing_witness :
    (serverVolatileBroadcastHandler ⟨[("r1", ["a", "b"])]⟩ "a" "r1"
        [1] [2]).map (fun e => ⟨e.event, e.recipients, e.payload, false⟩) =
      serverBroadcastHandler ⟨[("r1", ["a", "b"])]⟩ "a" "r1" [1] [2] :=
  (volatile_broadcast_same_addressing ⟨[("r1", ["a", "b"])]⟩ "a" "r1"
    [1] [2]).1

/-- C4 witness: "a" following "b" on an empty registry joins
"follow@b" and exactly one `user-follow-room-change` goes to "b"
carrying the follower list ["a"]. -/
theorem user_follow_FOLLOW_behavior_witness :
    (userFollowHandler ⟨[]⟩ "a" "b" FollowAction.FOLLOW).2 =
      [⟨"user-follow-room-change", ["b"], Payload.idList ["a"], false⟩] := by
  rw [(user_follow_FOLLOW_behavior ⟨[]⟩ "a" "b").2.2]
  decide

end ExcalidrawBackend
